import Mathlib

/-!
Verification of the wgetpipe concurrent URL fetcher (src/wgetpipe.go).

The program reads URLs from stdin, fetches each with a pool of getter
goroutines, and streams `urlCode` results to a single collator that
accumulates a `stat` record and prints one line per result.

This file shallowly embeds the sequential data paths of the program:
  * the collator loop `collate` (wgetpipe.go lines 190-236), modelled as a
    fold over the list of results read from the result channel, with the
    zero-value sentinel check and the per-iteration abort check;
  * the getter loop `getter` (lines 273-367), modelled as a recursion over
    the list of work items claimed from the work channel, with the
    per-iteration abort check and the empty-string sentinel check; the
    outcome of `Client.Do` is abstracted as an oracle mapping each URL to
    either a transport error or an HTTP response;
  * the stdin scanner `scanStdIn` (lines 240-267), modelled as a recursion
    over the list of input lines with the per-iteration non-blocking abort
    check, plus the progress-bar total adjustment;
  * the save path `SaveFile` (lines 372-395) and the decision of when the
    getter persists a response body (lines 327-350);
  * the timing skeleton of one GET (lines 319-352), with symbolic
    durations for the `Client.Do` call, the body read, and the body close.

Go `int`/`int64` fields are modelled as `Int` (status codes, sizes,
durations — `ContentLength` can be -1) or `Nat` (the collator's counters,
which start at zero and are only incremented). Goroutine scheduling is
abstracted by explicit schedules `Nat → Bool` saying whether the abort
flag is observed at a given loop iteration.
-/

namespace Wgetpipe

/-- Mirror of `urlCode` (wgetpipe.go lines 58-64): one result per GET
attempt. `Err` is `none` for Go's nil error. -/
structure urlCode where
  URL : String
  Code : Int
  Size : Int
  Dur : Int
  Err : Option String
deriving DecidableEq, Repr

/-- Mirror of `stat` (wgetpipe.go lines 68-74): counters written
exclusively by the collator. -/
structure stat where
  count : Nat
  error4s : Nat
  error5s : Nat
  errors : Nat
  mismatches : Nat
deriving DecidableEq, Repr

/-- The zero value of `stat`, as produced by `var rStats stat` in main
(wgetpipe.go line 136). -/
def stat.zero : stat := ⟨0, 0, 0, 0, 0⟩

/-- The zero value `zu = urlCode{}` that `collate` treats as a termination
sentinel (wgetpipe.go line 194). -/
def zu : urlCode := ⟨"", 0, 0, 0, none⟩

/-- The collator's visible state: its `stat` record plus the number of
`bar.Increment()` calls it has made (wgetpipe.go lines 212-214). -/
structure CollateState where
  stats : stat
  bar : Nat
deriving DecidableEq, Repr

/-- One body iteration of `collate` after the sentinel and abort checks
(wgetpipe.go lines 210-234): increment `count`, increment the bar, then
classify `i.Code` through the if-chain. Returns the new state and whether
an output line is emitted (the `ErrOnly` branch issues `continue`, which
skips only the output). The count and bar increments are written into
every branch here; in the source they appear once before the chain. -/
def collateProcess (errOnly : Bool) (c : CollateState) (i : urlCode) :
    CollateState × Bool :=
  if i.Code = 0 then
    (⟨{ c.stats with count := c.stats.count + 1, errors := c.stats.errors + 1 },
      c.bar + 1⟩, true)
  else if i.Code < 400 then
    (⟨{ c.stats with count := c.stats.count + 1 }, c.bar + 1⟩, !errOnly)
  else if i.Code < 500 then
    (⟨{ c.stats with count := c.stats.count + 1, error4s := c.stats.error4s + 1 },
      c.bar + 1⟩, true)
  else if i.Code < 600 then
    (⟨{ c.stats with count := c.stats.count + 1, error5s := c.stats.error5s + 1 },
      c.bar + 1⟩, true)
  else
    (⟨{ c.stats with count := c.stats.count + 1, mismatches := c.stats.mismatches + 1 },
      c.bar + 1⟩, true)

/-- One full iteration of the `collate` loop (wgetpipe.go lines 195-208):
first the zero-value sentinel check, then the non-blocking abort check;
`none` means the loop returns, otherwise the result is processed. -/
def collateIter (errOnly : Bool) (abortNow : Bool) (c : CollateState)
    (i : urlCode) : Option (CollateState × Bool) :=
  if i = zu then none
  else if abortNow then none
  else some (collateProcess errOnly c i)

/-- The `collate` loop (wgetpipe.go lines 190-236) over the list of
results read from `rChan`, in channel order. `abort n` tells whether the
abort channel is observed closed at iteration `n`. -/
def collate (errOnly : Bool) (abort : Nat → Bool) :
    Nat → CollateState → List urlCode → CollateState
  | _, c, [] => c
  | n, c, i :: rest =>
    match collateIter errOnly (abort n) c i with
    | none => c
    | some p => collate errOnly abort (n + 1) p.1 rest

/-- The collator state after a full drain with no cancellation, starting
from the zero-valued `rStats` and a fresh bar (wgetpipe.go lines 136,
163). -/
def collateFinal (errOnly : Bool) (rs : List urlCode) : CollateState :=
  collate errOnly (fun _ => false) 0 ⟨stat.zero, 0⟩ rs

/-- Sum of the four error-category counters of a `stat` (every category
except the uncounted successes). -/
def bucketSum (s : stat) : Nat :=
  s.errors + s.error4s + s.error5s + s.mismatches

/-- Componentwise order on `stat`: every counter of `a` is at most the
corresponding counter of `b`. -/
def statLE (a b : stat) : Prop :=
  a.count ≤ b.count ∧ a.error4s ≤ b.error4s ∧ a.error5s ≤ b.error5s ∧
    a.errors ≤ b.errors ∧ a.mismatches ≤ b.mismatches

/-- The five classification buckets of the collator's if-chain
(wgetpipe.go lines 216-234). -/
inductive Bucket where
  | transport
  | success
  | client
  | server
  | mismatch
deriving DecidableEq, Repr

/-- The classification implicit in the collator's if-chain (wgetpipe.go
lines 216-234), as a function of the status code alone. -/
def classify (code : Int) : Bucket :=
  if code = 0 then Bucket.transport
  else if code < 400 then Bucket.success
  else if code < 500 then Bucket.client
  else if code < 600 then Bucket.server
  else Bucket.mismatch

/-- Increment `count` and the counter of exactly one bucket (successes
have no counter of their own). -/
def bump (s : stat) : Bucket → stat
  | Bucket.transport => { s with count := s.count + 1, errors := s.errors + 1 }
  | Bucket.success => { s with count := s.count + 1 }
  | Bucket.client => { s with count := s.count + 1, error4s := s.error4s + 1 }
  | Bucket.server => { s with count := s.count + 1, error5s := s.error5s + 1 }
  | Bucket.mismatch => { s with count := s.count + 1, mismatches := s.mismatches + 1 }

/-- An HTTP response as seen by the getter: the fields of Go's
`http.Response` that the program reads (wgetpipe.go line 351). -/
structure Response where
  StatusCode : Int
  ContentLength : Int
deriving DecidableEq, Repr

/-- Outcome of one `Client.Do` call (wgetpipe.go line 320): either a
transport-level error or an HTTP response. -/
inductive DoResult where
  | err (e : String)
  | ok (resp : Response)
deriving DecidableEq, Repr

/-- Whether a `Client.Do` outcome is an HTTP response (Go: err == nil). -/
def DoResult.isOk : DoResult → Bool
  | DoResult.err _ => false
  | DoResult.ok _ => true

/-- The result the getter sends on `rChan` for one URL (wgetpipe.go lines
323-351): on error, code 0 and size 0 with the error attached; on an HTTP
response, the response's status code and content length with nil error. -/
def getterResult (url : String) (d : Int) : DoResult → urlCode
  | DoResult.err e => ⟨url, 0, 0, d, some e⟩
  | DoResult.ok resp => ⟨url, resp.StatusCode, resp.ContentLength, d, none⟩

/-- The `getter` loop (wgetpipe.go lines 293-365) over the list of work
items claimed from `getChan`, in claim order. `f` is the `Client.Do`
oracle giving each URL's outcome and measured duration; `abort n` tells
whether the abort flag is observed at iteration `n`. Returns the URLs
actually dispatched as GETs and the results sent on `rChan`. The post-GET
abort check (line 356) only stops the loop between an emit and the next
claim, which this trace model folds into the next iteration's pre-claim
check. -/
def getter (f : String → DoResult × Int) (abort : Nat → Bool) :
    Nat → List String → List String × List urlCode
  | _, [] => ([], [])
  | n, u :: rest =>
    if abort n then ([], [])
    else if u = "" then ([], [])
    else
      let r := f u
      let tail := getter f abort (n + 1) rest
      (u :: tail.1, getterResult u r.2 r.1 :: tail.2)

/-- Outcome of the stdin scanner: the lines pushed into `getChan`, and
whether `getChan` was closed on exit. -/
structure ScanOutcome where
  pushed : List String
  closed : Bool
deriving DecidableEq, Repr

/-- The scanner loop of `scanStdIn` (wgetpipe.go lines 246-263): before
every push a non-blocking select on the abort channel; on observing abort
the loop returns, otherwise the line is pushed. -/
def scanLoop (abort : Nat → Bool) : Nat → List String → List String
  | _, [] => []
  | n, l :: rest => if abort n then [] else l :: scanLoop abort (n + 1) rest

/-- `scanStdIn` (wgetpipe.go lines 240-267) over the list of stdin lines:
runs the scanner loop; `defer close(getChan)` (line 241) closes the work
channel on every exit path. -/
def scanStdIn (abort : Nat → Bool) (lines : List String) : ScanOutcome :=
  ⟨scanLoop abort 0 lines, true⟩

/-- One progress-bar total adjustment (wgetpipe.go lines 258-260): after a
line is pushed and `count` incremented, if the bar's total is below
`count`, `SetTotal(Total()+1)`. -/
def barUpdate (total : Int) (count : Int) : Int :=
  if total < count then total + 1 else total

/-- The bar's total after the scanner has read `n` lines, starting from
the `-guess` estimate (wgetpipe.go lines 148, 256-261): the k-th line is
pushed with `count = k`. -/
def barTotalRun (guess : Int) : Nat → Int
  | 0 => guess
  | n + 1 => barUpdate (barTotalRun guess n) (n + 1)

/-- The timing skeleton of one GET in the getter (wgetpipe.go lines
319-352), with symbolic non-negative durations: `s := time.Now()` at
`t0`; `Client.Do` returns after `tDo`; `d := time.Since(s)` is computed
there; the body is then read (`tBody`) and closed (`tClose`). Returns the
recorded duration `d` and the clock value once the body is fully read and
closed. -/
def runGet (t0 tDo tBody tClose : Nat) : Nat × Nat :=
  let s := t0
  let afterDo := t0 + tDo
  let d := afterDo - s
  let afterClose := afterDo + tBody + tClose
  (d, afterClose)

/-- A parsed URL, with the fields of Go's `url.URL` that `SaveFile`
reads: `Hostname()` (no port) and `Path`. -/
structure URLParts where
  scheme : String
  hostname : String
  path : String
deriving DecidableEq, Repr

/-- Go's `path.Dir`: everything before the final slash-separated element.
Cleaning of dot segments and duplicate slashes is not modelled; on the
slash-normalized paths produced by `url.Parse` this agrees with Go. -/
def goPathDir (p : String) : String :=
  let d := String.intercalate "/" (p.splitOn "/").dropLast
  if d = "" then (if p.startsWith "/" then "/" else ".") else d

/-- The filesystem effects of one `SaveFile` call: the directory passed
to `os.MkdirAll`, the file path passed to `os.WriteFile`, and the bytes
written. -/
structure SaveAction where
  mkdirPath : String
  writePath : String
  contents : String
deriving DecidableEq, Repr

/-- `SaveFile` (wgetpipe.go lines 372-395) on an already-parsed URL:
`dirs := path.Dir(url.Path)` with a "/" prefix forced, then
`MkdirAll(Hostname()+dirs)` and `WriteFile(Hostname()+Path, contents)`. -/
def SaveFile (u : URLParts) (contents : String) : SaveAction :=
  let dirs0 := goPathDir u.path
  let dirs := if dirs0.startsWith "/" then dirs0 else "/" ++ dirs0
  ⟨u.hostname ++ dirs, u.hostname ++ u.path, contents⟩

/-- Whether the getter calls `SaveFile` for one `Client.Do` outcome
(wgetpipe.go lines 323-350): never on a transport error; on an HTTP
response, in `ResponseDebug` mode whenever `Save` is set (even if the
body read failed), otherwise when `Save` is set and the body read
succeeded. -/
def saveHappens (save respDebug : Bool) (r : DoResult) (bodyReadOk : Bool) :
    Bool :=
  match r with
  | DoResult.err _ => false
  | DoResult.ok _ => if respDebug then save else if save then bodyReadOk else false

/-- Concrete result list mirroring the spec's test scenario: one success,
one client error, one transport error. -/
def witResults : List urlCode :=
  [⟨"http://a.test/ok200", 200, 5, 1, none⟩,
   ⟨"http://a.test/404", 404, 0, 1, none⟩,
   ⟨"http://a.test/unreachable", 0, 0, 1, some "no route to host"⟩]

/-- Concrete `Client.Do` oracle for the spec's test scenario. -/
def witOracle : String → DoResult × Int := fun u =>
  if u = "http://a.test/unreachable" then (DoResult.err "no route to host", 2)
  else if u = "http://a.test/404" then (DoResult.ok ⟨404, 0⟩, 1)
  else (DoResult.ok ⟨200, 5⟩, 1)

/-- Concrete work list for the spec's test scenario. -/
def witWork : List String :=
  ["http://a.test/ok200", "http://a.test/404", "http://a.test/unreachable"]

lemma collateProcess_count (eo : Bool) (c : CollateState) (i : urlCode) :
    (collateProcess eo c i).1.stats.count = c.stats.count + 1 := by
  unfold collateProcess
  split_ifs <;> rfl

lemma collateProcess_bar (eo : Bool) (c : CollateState) (i : urlCode) :
    (collateProcess eo c i).1.bar = c.bar + 1 := by
  unfold collateProcess
  split_ifs <;> rfl

lemma collateProcess_mono (eo : Bool) (c : CollateState) (i : urlCode) :
    statLE c.stats (collateProcess eo c i).1.stats := by
  unfold collateProcess statLE
  split_ifs <;> refine ⟨?_, ?_, ?_, ?_, ?_⟩ <;> simp

lemma collateProcess_buckets (eo : Bool) (c : CollateState) (i : urlCode)
    (h : 0 ≤ i.Code) :
    bucketSum (collateProcess eo c i).1.stats +
        (if 0 < i.Code ∧ i.Code < 400 then 1 else 0) =
      bucketSum c.stats + 1 := by
  unfold collateProcess bucketSum
  split_ifs <;> simp_all <;> omega

lemma collateIter_noAbort (eo : Bool) (c : CollateState) (i : urlCode)
    (hi : i ≠ zu) : collateIter eo false c i = some (collateProcess eo c i) := by
  unfold collateIter
  rw [if_neg hi]
  rfl

lemma collate_noAbort (eo : Bool) :
    ∀ (rs : List urlCode) (n : Nat) (c : CollateState), (∀ r ∈ rs, r ≠ zu) →
      collate eo (fun _ => false) n c rs =
        rs.foldl (fun c i => (collateProcess eo c i).1) c := by
  intro rs
  induction rs with
  | nil => intro n c _; rfl
  | cons i rest ih =>
    intro n c h
    have hi : i ≠ zu := h i (List.mem_cons_self i rest)
    simp only [collate, collateIter_noAbort eo c i hi, List.foldl_cons]
    exact ih (n + 1) _ (fun r hr => h r (List.mem_cons_of_mem _ hr))

lemma foldl_count (eo : Bool) :
    ∀ (rs : List urlCode) (c : CollateState),
      (rs.foldl (fun c i => (collateProcess eo c i).1) c).stats.count =
        c.stats.count + rs.length := by
  intro rs
  induction rs with
  | nil => intro c; simp
  | cons i rest ih =>
    intro c
    rw [List.foldl_cons, ih, collateProcess_count]
    simp only [List.length_cons]
    omega

lemma foldl_buckets (eo : Bool) :
    ∀ (rs : List urlCode) (c : CollateState), (∀ r ∈ rs, 0 ≤ r.Code) →
      bucketSum (rs.foldl (fun c i => (collateProcess eo c i).1) c).stats +
          rs.countP (fun r => decide (0 < r.Code ∧ r.Code < 400)) =
        bucketSum c.stats + rs.length := by
  intro rs
  induction rs with
  | nil => intro c _; simp
  | cons i rest ih =>
    intro c h
    have h0 : 0 ≤ i.Code := h i (List.mem_cons_self i rest)
    have hrest := ih ((collateProcess eo c i).1)
      (fun r hr => h r (List.mem_cons_of_mem _ hr))
    have hstep := collateProcess_buckets eo c i h0
    rw [List.foldl_cons, List.countP_cons]
    simp only [List.length_cons, decide_eq_true_eq]
    by_cases hP : 0 < i.Code ∧ i.Code < 400
    · simp only [hP, if_true] at hstep ⊢
      omega
    · simp only [hP, if_false] at hstep ⊢
      omega

lemma statLE_refl (s : stat) : statLE s s :=
  ⟨le_refl _, le_refl _, le_refl _, le_refl _, le_refl _⟩

lemma statLE_trans {a b c : stat} (h1 : statLE a b) (h2 : statLE b c) :
    statLE a c :=
  ⟨le_trans h1.1 h2.1, le_trans h1.2.1 h2.2.1, le_trans h1.2.2.1 h2.2.2.1,
   le_trans h1.2.2.2.1 h2.2.2.2.1, le_trans h1.2.2.2.2 h2.2.2.2.2⟩

lemma collate_mono (eo : Bool) (ab : Nat → Bool) :
    ∀ (rs : List urlCode) (n : Nat) (c : CollateState),
      statLE c.stats (collate eo ab n c rs).stats := by
  intro rs
  induction rs with
  | nil => intro n c; exact statLE_refl _
  | cons i rest ih =>
    intro n c
    rcases hIter : collateIter eo (ab n) c i with _ | p
    · simp only [collate, hIter]
      exact statLE_refl _
    · simp only [collate, hIter]
      have hp : p.1 = (collateProcess eo c i).1 := by
        unfold collateIter at hIter
        split_ifs at hIter
        cases hIter
        rfl
      rw [hp]
      exact statLE_trans (collateProcess_mono eo c i) (ih (n + 1) _)

/-- Claim C1: after the result channel is fully drained with no
cancellation (no zero-value sentinel among the results, abort never
observed), the final `count` equals `errors + error4s + error5s +
mismatches` plus the number of successes (results with
`0 < Code < 400`); and every counter is updated monotonically, both by
each single collator step and across any collator run. -/
theorem collate_total_invariant (eo : Bool) (rs : List urlCode)
    (hz : ∀ r ∈ rs, r ≠ zu) (h0 : ∀ r ∈ rs, 0 ≤ r.Code) :
    ((collateFinal eo rs).stats.count =
        (collateFinal eo rs).stats.errors + (collateFinal eo rs).stats.error4s +
          (collateFinal eo rs).stats.error5s +
          (collateFinal eo rs).stats.mismatches +
          rs.countP (fun r => decide (0 < r.Code ∧ r.Code < 400)))
    ∧ (∀ (eo2 : Bool) (c : CollateState) (i : urlCode),
        statLE c.stats (collateProcess eo2 c i).1.stats)
    ∧ (∀ (ab : Nat → Bool) (n : Nat) (c : CollateState) (l : List urlCode),
        statLE c.stats (collate eo ab n c l).stats) := by
  refine ⟨?_, fun eo2 c i => collateProcess_mono eo2 c i,
    fun ab n c l => collate_mono eo ab l n c⟩
  have hfold := collate_noAbort eo rs 0 ⟨stat.zero, 0⟩ hz
  have hcount := foldl_count eo rs ⟨stat.zero, 0⟩
  have hbuck := foldl_buckets eo rs ⟨stat.zero, 0⟩ h0
  unfold collateFinal
  rw [hfold]
  unfold bucketSum at hbuck
  simp only [stat.zero] at hcount hbuck ⊢
  omega

/-- Witness for C1 at the spec's three-result scenario (one success, one
client error, one transport error). -/
theorem collate_total_invariant_witness :
    (collateFinal false witResults).stats.count =
      (collateFinal false witResults).stats.errors +
        (collateFinal false witResults).stats.error4s +
        (collateFinal false witResults).stats.error5s +
        (collateFinal false witResults).stats.mismatches +
        witResults.countP (fun r => decide (0 < r.Code ∧ r.Code < 400)) :=
  (collate_total_invariant false witResults (by decide) (by decide)).1

/-- Claim C2: the collator classifies each result into exactly one bucket
by its status code — 0 is a transport error, 1-399 a success, 400-499 a
client error, 500-599 a server error, 600 and above a mismatch; a
transport failure (code 0) is never classified 4xx or 5xx; and each
collator step updates the counters by bumping exactly the classified
bucket. -/
theorem classify_buckets (code : Int) :
    (code = 0 → classify code = Bucket.transport)
    ∧ (1 ≤ code → code ≤ 399 → classify code = Bucket.success)
    ∧ (400 ≤ code → code ≤ 499 → classify code = Bucket.client)
    ∧ (500 ≤ code → code ≤ 599 → classify code = Bucket.server)
    ∧ (600 ≤ code → classify code = Bucket.mismatch)
    ∧ (classify 0 ≠ Bucket.client ∧ classify 0 ≠ Bucket.server)
    ∧ (∀ (eo : Bool) (st : CollateState) (i : urlCode),
        (collateProcess eo st i).1.stats = bump st.stats (classify i.Code)) := by
  refine ⟨?_, ?_, ?_, ?_, ?_, ⟨by decide, by decide⟩, ?_⟩
  · intro h
    subst h
    decide
  · intro h1 h2
    unfold classify
    split_ifs <;> first | rfl | (exfalso; omega)
  · intro h1 h2
    unfold classify
    split_ifs <;> first | rfl | (exfalso; omega)
  · intro h1 h2
    unfold classify
    split_ifs <;> first | rfl | (exfalso; omega)
  · intro h
    unfold classify
    split_ifs <;> first | rfl | (exfalso; omega)
  · intro eo st i
    unfold collateProcess classify bump
    split_ifs <;> rfl

/-- Witness for C2 at status code 404. -/
theorem classify_buckets_witness : classify 404 = Bucket.client :=
  (classify_buckets 404).2.2.1 (by decide) (by decide)

/-- Claim C8: in errors-only mode, a result with `0 < Code < 400` has its
output line suppressed but is still counted (stats count and progress
bar both advance), while a result with `Code = 0` or `Code ≥ 400` is
always output, in any mode; results that pass the sentinel check are
processed whenever no abort is observed. -/
theorem errorsonly_behavior (c : CollateState) (i : urlCode) (hi : i ≠ zu) :
    (∀ eo : Bool, collateIter eo false c i = some (collateProcess eo c i))
    ∧ (0 < i.Code → i.Code < 400 →
        (collateProcess true c i).2 = false
        ∧ (collateProcess true c i).1.stats.count = c.stats.count + 1
        ∧ (collateProcess true c i).1.bar = c.bar + 1)
    ∧ (∀ eo : Bool, i.Code = 0 ∨ 400 ≤ i.Code →
        (collateProcess eo c i).2 = true) := by
  refine ⟨fun eo => collateIter_noAbort eo c i hi, ?_, ?_⟩
  · intro h1 h2
    refine ⟨?_, collateProcess_count true c i, collateProcess_bar true c i⟩
    unfold collateProcess
    split_ifs <;> first | rfl | (exfalso; omega)
  · intro eo h
    unfold collateProcess
    split_ifs <;> first | rfl | (exfalso; rcases h with h | h <;> omega)

/-- Witness for C8: a 200 result is suppressed in errors-only mode. -/
theorem errorsonly_behavior_witness :
    (collateProcess true ⟨stat.zero, 0⟩
        ⟨"http://a.test/ok200", 200, 5, 1, none⟩).2 = false :=
  ((errorsonly_behavior ⟨stat.zero, 0⟩ ⟨"http://a.test/ok200", 200, 5, 1, none⟩
      (by decide)).2.1 (by decide) (by decide)).1

lemma scanLoop_take (ab : Nat → Bool) :
    ∀ (ls : List String) (n : Nat),
      scanLoop ab n ls = ls.take (scanLoop ab n ls).length := by
  intro ls
  induction ls with
  | nil => intro n; rfl
  | cons l rest ih =>
    intro n
    cases hab : ab n with
    | true => simp [scanLoop, hab]
    | false =>
      simp only [scanLoop, hab, Bool.false_eq_true, if_false, List.length_cons,
        List.take_succ_cons]
      exact congrArg (l :: ·) (ih (n + 1))

lemma scanLoop_checks (ab : Nat → Bool) :
    ∀ (ls : List String) (n i : Nat),
      i < (scanLoop ab n ls).length → ab (n + i) = false := by
  intro ls
  induction ls with
  | nil => intro n i h; simp [scanLoop] at h
  | cons l rest ih =>
    intro n i h
    cases hab : ab n with
    | true => simp [scanLoop, hab] at h
    | false =>
      rcases i with _ | j
      · simpa using hab
      · have h2 : j < (scanLoop ab (n + 1) rest).length := by
          simp [scanLoop, hab] at h
          omega
        have heq : n + (j + 1) = (n + 1) + j := by omega
        rw [heq]
        exact ih (n + 1) j h2

lemma scanLoop_stops (ab : Nat → Bool) :
    ∀ (ls : List String) (n i : Nat), i < ls.length → ab (n + i) = true →
      (scanLoop ab n ls).length ≤ i := by
  intro ls
  induction ls with
  | nil => intro n i _ _; simp [scanLoop]
  | cons l rest ih =>
    intro n i hlen habt
    cases hab : ab n with
    | true => simp [scanLoop, hab]
    | false =>
      rcases i with _ | j
      · rw [Nat.add_zero] at habt
        rw [habt] at hab
        cases hab
      · have hrest : j < rest.length := by
          simp only [List.length_cons] at hlen
          omega
        have habt2 : ab ((n + 1) + j) = true := by
          have heq : (n + 1) + j = n + (j + 1) := by omega
          rw [heq]
          exact habt
        have := ih (n + 1) j hrest habt2
        simp only [scanLoop, hab, Bool.false_eq_true, if_false, List.length_cons]
        omega

lemma getter_cons_abort (f : String → DoResult × Int) (ab : Nat → Bool)
    (n : Nat) (u : String) (rest : List String) (hab : ab n = true) :
    getter f ab n (u :: rest) = ([], []) := by
  simp only [getter]
  rw [hab]
  rfl

lemma getter_cons_empty (f : String → DoResult × Int) (ab : Nat → Bool)
    (n : Nat) (rest : List String) (hab : ab n = false) :
    getter f ab n ("" :: rest) = ([], []) := by
  simp only [getter]
  rw [hab]
  rfl

lemma getter_cons_step (f : String → DoResult × Int) (ab : Nat → Bool)
    (n : Nat) (u : String) (rest : List String) (hab : ab n = false)
    (hu : u ≠ "") :
    getter f ab n (u :: rest) =
      (u :: (getter f ab (n + 1) rest).1,
       getterResult u (f u).2 (f u).1 :: (getter f ab (n + 1) rest).2) := by
  simp only [getter]
  rw [hab, if_neg hu]
  rfl

lemma getter_no_empty_dispatch (f : String → DoResult × Int) (ab : Nat → Bool) :
    ∀ (ws : List String) (n : Nat), "" ∉ (getter f ab n ws).1 := by
  intro ws
  induction ws with
  | nil => intro n; simp [getter]
  | cons u rest ih =>
    intro n
    cases hab : ab n with
    | true =>
      rw [getter_cons_abort f ab n u rest hab]
      simp
    | false =>
      by_cases hu : u = ""
      · subst hu
        rw [getter_cons_empty f ab n rest hab]
        simp
      · rw [getter_cons_step f ab n u rest hab hu]
        show "" ∉ u :: (getter f ab (n + 1) rest).1
        rw [List.mem_cons]
        rintro (h | h)
        · exact hu h.symm
        · exact ih (n + 1) h

lemma getter_results_ne_zu (f : String → DoResult × Int) (ab : Nat → Bool) :
    ∀ (ws : List String) (n : Nat) (r : urlCode),
      r ∈ (getter f ab n ws).2 → r ≠ zu := by
  intro ws
  induction ws with
  | nil => intro n r hr; simp [getter] at hr
  | cons u rest ih =>
    intro n r hr
    cases hab : ab n with
    | true =>
      rw [getter_cons_abort f ab n u rest hab] at hr
      simp at hr
    | false =>
      by_cases hu : u = ""
      · subst hu
        rw [getter_cons_empty f ab n rest hab] at hr
        simp at hr
      · rw [getter_cons_step f ab n u rest hab hu] at hr
        have hr2 : r = getterResult u (f u).2 (f u).1 ∨
            r ∈ (getter f ab (n + 1) rest).2 := by
          simpa using hr
        rcases hr2 with h | h
        · subst h
          cases hfu : (f u).1 with
          | err e => simp [getterResult, zu]
          | ok resp => simp [getterResult, zu, hu]
        · exact ih (n + 1) r h

/-- Claim C3: the result a getter emits has a non-nil error exactly when
its status code is 0 (given that an HTTP response carries a nonzero
status code): a transport failure yields code 0, size 0, the measured
duration and the error; an HTTP response yields its status code and
content length with nil error. -/
theorem result_error_iff_code_zero (url : String) (d : Int) (r : DoResult)
    (h : ∀ resp, r = DoResult.ok resp → resp.StatusCode ≠ 0) :
    ((getterResult url d r).Err.isSome = true ↔ (getterResult url d r).Code = 0)
    ∧ (∀ e, r = DoResult.err e →
        getterResult url d r = ⟨url, 0, 0, d, some e⟩)
    ∧ (∀ resp, r = DoResult.ok resp →
        getterResult url d r = ⟨url, resp.StatusCode, resp.ContentLength, d, none⟩) := by
  refine ⟨?_, ?_, ?_⟩
  · cases r with
    | err e => simp [getterResult]
    | ok resp =>
      have hne := h resp rfl
      simp [getterResult, hne]
  · intro e he
    subst he
    rfl
  · intro resp hr
    subst hr
    rfl

/-- Witness for C3 at a DNS-style transport failure. -/
theorem result_error_iff_code_zero_witness :
    getterResult "http://a.test/unreachable" 2 (DoResult.err "no route to host") =
      ⟨"http://a.test/unreachable", 0, 0, 2, some "no route to host"⟩ :=
  (result_error_iff_code_zero "http://a.test/unreachable" 2
      (DoResult.err "no route to host")
      (fun _ hresp => nomatch hresp)).2.1 "no route to host" rfl

/-- Counterexample to claim C4 as stated: at `t0 = 0`, `tDo = 5`,
`tBody = 3`, `tClose = 2`, the recorded duration (5) is not the
wall-clock span from just before the call to just after the body is
fully read and closed (10): the code computes `d := time.Since(s)`
immediately after `Client.Do`, before reading or closing the body. -/
theorem duration_claim_cex :
    ¬ ((runGet 0 5 3 2).1 = (runGet 0 5 3 2).2 - 0) := by decide

/-- Claim C4 (amended): the recorded duration covers exactly the
`Client.Do` call (connect, TLS, and response headers), measured from just
before the call to just after `Do` returns; the subsequent body read and
body close are excluded, so the recorded duration equals the full
wall-clock span through body close only when the body read and close
take no time. -/
theorem duration_measures_do_call (t0 tDo tBody tClose : Nat) :
    (runGet t0 tDo tBody tClose).1 = tDo
    ∧ (runGet t0 tDo tBody tClose).2 = t0 + tDo + tBody + tClose
    ∧ ((runGet t0 tDo tBody tClose).1 = (runGet t0 tDo tBody tClose).2 - t0 ↔
        tBody + tClose = 0) := by
  dsimp only [runGet]
  refine ⟨by omega, by omega, ?_⟩
  constructor
  · intro h
    omega
  · intro h
    omega

/-- Claim C5: a getter that claims the empty string exits immediately —
no GET is dispatched and no result is emitted — and the empty string is
never among the URLs a getter dispatches as requests. -/
theorem getter_empty_sentinel (f : String → DoResult × Int) (ab : Nat → Bool)
    (n : Nat) (rest : List String) :
    getter f ab n ("" :: rest) = ([], [])
    ∧ (∀ ws : List String, "" ∉ (getter f ab n ws).1) := by
  constructor
  · cases hab : ab n with
    | true => exact getter_cons_abort f ab n "" rest hab
    | false => exact getter_cons_empty f ab n rest hab
  · intro ws
    exact getter_no_empty_dispatch f ab ws n

/-- Witness for C5: a worker whose first claimed item is the sentinel
dispatches nothing and emits nothing. -/
theorem getter_empty_sentinel_witness :
    getter witOracle (fun _ => false) 0 ("" :: witWork) = ([], []) :=
  (getter_empty_sentinel witOracle (fun _ => false) 0 witWork).1

/-- Claim C6: the scanner closes the work queue on every exit path, only
ever pushes a prefix of the input lines, each push is preceded by a
non-blocking cancellation check that observed no abort, and once abort
is observed at some iteration no line from that iteration on is pushed. -/
theorem scan_cancellation (ab : Nat → Bool) (lines : List String) :
    (scanStdIn ab lines).closed = true
    ∧ (scanStdIn ab lines).pushed =
        lines.take (scanStdIn ab lines).pushed.length
    ∧ (∀ i, i < (scanStdIn ab lines).pushed.length → ab i = false)
    ∧ (∀ i, i < lines.length → ab i = true →
        (scanStdIn ab lines).pushed.length ≤ i) := by
  refine ⟨rfl, scanLoop_take ab lines 0, ?_, ?_⟩
  · intro i h
    have := scanLoop_checks ab lines 0 i h
    simpa using this
  · intro i h1 h2
    exact scanLoop_stops ab lines 0 i h1 (by simpa using h2)

/-- Witness for C6: with abort observed from iteration 2 on, at most the
first two of four lines are pushed. -/
theorem scan_cancellation_witness :
    (scanStdIn (fun n => decide (2 ≤ n)) ["u1", "u2", "u3", "u4"]).pushed.length ≤ 2 :=
  (scan_cancellation (fun n => decide (2 ≤ n)) ["u1", "u2", "u3", "u4"]).2.2.2 2
    (by decide) (by decide)

/-- Counterexample to claim C7 as stated: with `-save` set (default
debug), a 404 response — not a success — still has its body persisted:
the save path runs for every `Client.Do` outcome with a nil error,
regardless of status code. -/
theorem save_not_only_success_cex :
    saveHappens true false (DoResult.ok ⟨404, 10⟩) true = true
    ∧ ¬ (0 < (404 : Int) ∧ (404 : Int) < 400) := by decide

/-- Claim C7 (amended): when the save flag is set, exactly the bodies of
received HTTP responses (any status code; in default mode those whose
body read succeeded, in response-debug mode all of them) are persisted,
at path hostname ++ URL path with the scheme dropped; transport-error
results are never persisted. -/
theorem save_all_http_responses (sv rd : Bool) (r : DoResult) (bOk : Bool)
    (u : URLParts) (cts : String) :
    (saveHappens sv rd r bOk = (sv && r.isOk && (rd || bOk)))
    ∧ ((SaveFile u cts).writePath = u.hostname ++ u.path)
    ∧ ((SaveFile u cts).contents = cts)
    ∧ (∀ e, r = DoResult.err e → saveHappens sv rd r bOk = false) := by
  refine ⟨?_, rfl, rfl, ?_⟩
  · cases r <;> cases sv <;> cases rd <;> cases bOk <;> rfl
  · intro e he
    subst he
    rfl

/-- Witness for C7 (amended): a transport error is never persisted. -/
theorem save_all_http_responses_witness :
    saveHappens true false (DoResult.err "no route to host") true = false :=
  (save_all_http_responses true false (DoResult.err "no route to host") true
      ⟨"http", "a.test", "/x"⟩ "body").2.2.2 "no route to host" rfl

/-- Claim C9: for a non-negative initial guess, the progress-bar total
after `n` lines equals `max guess n` — so it is never below the number of
lines read, never decreases, and is adjusted upward by exactly the
overage. -/
theorem bar_total_monotone (guess : Int) (n : Nat) (hg : 0 ≤ guess) :
    barTotalRun guess n = max guess (n : Int)
    ∧ barTotalRun guess n ≤ barTotalRun guess (n + 1)
    ∧ (n : Int) ≤ barTotalRun guess n := by
  have key : ∀ m : Nat, barTotalRun guess m = max guess (m : Int) := by
    intro m
    induction m with
    | zero =>
      simp only [barTotalRun, Nat.cast_zero]
      omega
    | succ k ih =>
      simp only [barTotalRun, barUpdate, ih]
      push_cast
      split_ifs <;> omega
  refine ⟨key n, ?_, ?_⟩
  · rw [key n, key (n + 1)]
    push_cast
    omega
  · rw [key n]
    omega

/-- Witness for C9 at guess 2 and 5 lines read. -/
theorem bar_total_monotone_witness : barTotalRun 2 5 = max 2 ((5 : Nat) : Int) :=
  (bar_total_monotone 2 5 (by decide)).1

/-- Claim C10: no result a getter ever emits equals the all-zero value
`zu` — the transport-error path carries a non-nil error and the
HTTP-response path carries the non-empty claimed URL — so the collator's
zero-value termination special case never fires on, and the collator
never silently drops, a worker-produced result: an uncancelled collator
counts every one of them. -/
theorem getter_no_zero_result (f : String → DoResult × Int) (ab : Nat → Bool)
    (n : Nat) (ws : List String) :
    (∀ r ∈ (getter f ab n ws).2, r ≠ zu)
    ∧ (∀ (eo : Bool) (c : CollateState),
        (collate eo (fun _ => false) 0 c (getter f ab n ws).2).stats.count =
          c.stats.count + ((getter f ab n ws).2).length) := by
  refine ⟨fun r hr => getter_results_ne_zu f ab ws n r hr, ?_⟩
  intro eo c
  rw [collate_noAbort eo ((getter f ab n ws).2) 0 c
    (fun r hr => getter_results_ne_zu f ab ws n r hr)]
  exact foldl_count eo ((getter f ab n ws).2) c

/-- Witness for C10: the success result of the scenario's first URL is a
worker-emitted result and differs from the zero value. -/
theorem getter_no_zero_result_witness :
    getterResult "http://a.test/ok200" 1 (DoResult.ok ⟨200, 5⟩) ≠ zu :=
  (getter_no_zero_result witOracle (fun _ => false) 0 witWork).1
    (getterResult "http://a.test/ok200" 1 (DoResult.ok ⟨200, 5⟩)) (by decide)

end Wgetpipe
